import Mathlib

/-!
Verification of the duangler transport/session core against its
natural-language specification.

The Rust sources embedded here:
  - src/transport/mod.rs      : framing codec (send_msg, MessageReader.fill_buf,
                                 MessageReader.recv_msg), Transport, Transporter,
                                 SingleCertVerifier.
  - src/server/transport_server.rs : server session manager loop (run),
                                 SessionHandler.is_connected, session state
                                 machine (run_session), upgrade_server_stream.
  - src/client/transport_client.rs : client handshake (run_client),
                                 upgrade_client_stream.
  - src/protocol/input_event.rs : InputEvent, MouseButton, KeyCode.

The protocol message enums (ClientMessage, ServerMessage, HelloMessage,
HelloReply, Sha256, ...) live in a module that is not part of the sources
given here; they are modelled from the spec where needed.  The bincode and
sha2 crates are external libraries; their documented byte formats are
modelled directly (bincode legacy config: little-endian, fixed-width
integers, u32 enum tags, u64 length-prefixed byte strings; sha2: FIPS 180-4
SHA-256).

Bytes are modelled as Nat (values below 256 on the wire), byte strings as
List Nat, asynchronous IO results as Except values.
-/

namespace Duangler

/-! ## SHA-256 (model of the external sha2 crate used by Sha256.from_bytes)

A direct executable implementation of FIPS 180-4 SHA-256 over byte lists.
All words are Nats kept below 2 to the 32 by masking. -/

/-- Truncate a Nat to a 32-bit word. -/
def w32 (n : Nat) : Nat := n % 4294967296

/-- Rotate a 32-bit word right by n bits. -/
def rotr32 (x n : Nat) : Nat := w32 ((x >>> n) ||| (x <<< (32 - n)))

/-- SHA-256 big sigma 0. -/
def bigSigma0 (x : Nat) : Nat := (rotr32 x 2) ^^^ ((rotr32 x 13) ^^^ (rotr32 x 22))

/-- SHA-256 big sigma 1. -/
def bigSigma1 (x : Nat) : Nat := (rotr32 x 6) ^^^ ((rotr32 x 11) ^^^ (rotr32 x 25))

/-- SHA-256 small sigma 0. -/
def smallSigma0 (x : Nat) : Nat := (rotr32 x 7) ^^^ ((rotr32 x 18) ^^^ (x >>> 3))

/-- SHA-256 small sigma 1. -/
def smallSigma1 (x : Nat) : Nat := (rotr32 x 17) ^^^ ((rotr32 x 19) ^^^ (x >>> 10))

/-- SHA-256 choice function. -/
def chooseBits (x y z : Nat) : Nat := (x &&& y) ^^^ ((x ^^^ 4294967295) &&& z)

/-- SHA-256 majority function. -/
def majorityBits (x y z : Nat) : Nat := (x &&& y) ^^^ ((x &&& z) ^^^ (y &&& z))

/-- The 64 SHA-256 round constants (FIPS 180-4 section 4.2.2, written in
decimal). -/
def shaK : List Nat :=
  [1116352408, 1899447441, 3049323471, 3921009573, 961987163, 1508970993,
   2453635748, 2870763221, 3624381080, 310598401, 607225278, 1426881987,
   1925078388, 2162078206, 2614888103, 3248222580, 3835390401, 4022224774,
   264347078, 604807628, 770255983, 1249150122, 1555081692, 1996064986,
   2554220882, 2821834349, 2952996808, 3210313671, 3336571891, 3584528711,
   113926993, 338241895, 666307205, 773529912, 1294757372, 1396182291,
   1695183700, 1986661051, 2177026350, 2456956037, 2730485921, 2820302411,
   3259730800, 3345764771, 3516065817, 3600352804, 4094571909, 275423344,
   430227734, 506948616, 659060556, 883997877, 958139571, 1322822218,
   1537002063, 1747873779, 1955562222, 2024104815, 2227730452, 2361852424,
   2428436474, 2756734187, 3204031479, 3329325298]

/-- The SHA-256 initial hash value (FIPS 180-4 section 5.3.3, decimal). -/
def shaH0 : List Nat :=
  [1779033703, 3144134277, 1013904242, 2773480762,
   1359893119, 2600822924, 528734635, 1541459225]

/-- Big-endian 8-byte encoding of a Nat. -/
def be64 (n : Nat) : List Nat :=
  [(n >>> 56) &&& 255, (n >>> 48) &&& 255, (n >>> 40) &&& 255, (n >>> 32) &&& 255,
   (n >>> 24) &&& 255, (n >>> 16) &&& 255, (n >>> 8) &&& 255, n &&& 255]

/-- Big-endian 4-byte encoding of a 32-bit word. -/
def be32 (n : Nat) : List Nat :=
  [(n >>> 24) &&& 255, (n >>> 16) &&& 255, (n >>> 8) &&& 255, n &&& 255]

/-- SHA-256 message padding: append 0x80, zeros to 56 mod 64, then the
bit length as a big-endian 64-bit integer. -/
def padMsg (msg : List Nat) : List Nat :=
  msg ++ [0x80] ++ List.replicate ((119 - msg.length % 64) % 64) 0 ++ be64 (8 * msg.length)

/-- Group bytes into big-endian 32-bit words. -/
def bytesToWords : List Nat → List Nat
  | a :: b :: c :: d :: rest =>
      ((a <<< 24) ||| (b <<< 16) ||| (c <<< 8) ||| d) :: bytesToWords rest
  | _ => []

/-- Extend the message schedule, keeping the words in reverse order
(newest first); prepends n new words. -/
def scheduleRev (rev : List Nat) : Nat → List Nat
  | 0 => rev
  | n + 1 =>
      scheduleRev
        (w32 (smallSigma1 (rev.getD 1 0) + rev.getD 6 0 +
              smallSigma0 (rev.getD 14 0) + rev.getD 15 0) :: rev)
        n

/-- Full 64-word message schedule from a 16-word block. -/
def schedule (w16 : List Nat) : List Nat := (scheduleRev w16.reverse 48).reverse

/-- One SHA-256 compression round applied to the 8-word working state. -/
def shaRound (s : Nat × Nat × Nat × Nat × Nat × Nat × Nat × Nat) (kw : Nat × Nat) :
    Nat × Nat × Nat × Nat × Nat × Nat × Nat × Nat :=
  match s, kw with
  | (a, b, c, d, e, f, g, h), (k, w) =>
      let t1 := w32 (h + bigSigma1 e + chooseBits e f g + k + w)
      let t2 := w32 (bigSigma0 a + majorityBits a b c)
      (w32 (t1 + t2), a, b, c, w32 (d + t1), e, f, g)

/-- Compress one 16-word block into the running hash. -/
def compressBlock (h : List Nat) (block : List Nat) : List Nat :=
  let ws := schedule block
  let init := (h.getD 0 0, h.getD 1 0, h.getD 2 0, h.getD 3 0,
               h.getD 4 0, h.getD 5 0, h.getD 6 0, h.getD 7 0)
  match (shaK.zip ws).foldl shaRound init with
  | (a, b, c, d, e, f, g, hh) =>
      [w32 (h.getD 0 0 + a), w32 (h.getD 1 0 + b), w32 (h.getD 2 0 + c), w32 (h.getD 3 0 + d),
       w32 (h.getD 4 0 + e), w32 (h.getD 5 0 + f), w32 (h.getD 6 0 + g), w32 (h.getD 7 0 + hh)]

/-- Compress every 16-word block of the padded message. -/
def compressAll (h : List Nat) : List Nat → List Nat
  | w0 :: w1 :: w2 :: w3 :: w4 :: w5 :: w6 :: w7 ::
    w8 :: w9 :: w10 :: w11 :: w12 :: w13 :: w14 :: w15 :: rest =>
      compressAll (compressBlock h [w0, w1, w2, w3, w4, w5, w6, w7,
                                    w8, w9, w10, w11, w12, w13, w14, w15]) rest
  | _ => h

/-- SHA-256 digest of a byte list, as a list of 32 bytes. -/
def sha256 (msg : List Nat) : List Nat :=
  ((compressAll shaH0 (bytesToWords (padMsg msg))).map be32).flatten

/-- Validation of the SHA-256 model against the FIPS 180-4 test vector for
the three-byte message "abc" (digest bytes in decimal). -/
theorem sha256_abc_vector :
    sha256 [97, 98, 99] =
      [186, 120, 22, 191, 143, 1, 207, 234,
       65, 65, 64, 222, 93, 174, 34, 35,
       176, 3, 97, 163, 150, 23, 122, 156,
       180, 16, 255, 97, 242, 0, 21, 173] := by decide

/-! ## Pinned certificate verifier (src/transport/mod.rs 277-324)

A rustls certificate is its raw DER byte string; the newtype Certificate in
transport/mod.rs wraps Vec of u8.  Both verification callbacks compare the
raw bytes of the presented end-entity certificate with the pinned value. -/

/-- Certifier for a single known certificate (struct SingleCertVerifier). -/
structure SingleCertVerifier where
  cert : List Nat
  deriving DecidableEq, Repr

/-- Constructor SingleCertVerifier::new. -/
def SingleCertVerifier.new (cert : List Nat) : SingleCertVerifier := ⟨cert⟩

/-- ServerCertVerifier::verify_server_cert for SingleCertVerifier: succeeds
iff the raw bytes of end_entity equal the pinned value (the code returns
Ok(assertion) on equality and Err otherwise; we model success as true). -/
def SingleCertVerifier.verify_server_cert (v : SingleCertVerifier) (end_entity : List Nat) : Bool :=
  end_entity = v.cert

/-- ClientCertVerifier::verify_client_cert for SingleCertVerifier: same
raw-byte comparison as the server-side callback. -/
def SingleCertVerifier.verify_client_cert (v : SingleCertVerifier) (end_entity : List Nat) : Bool :=
  end_entity = v.cert

/-- Modelled from the spec: Sha256::from_bytes of the missing protocol
module is the 32-byte SHA-256 digest of the input (spec section 3,
Fingerprint: a fixed-length cryptographic digest, 32 bytes, of a
certificate raw encoding; the sha2 crate computes FIPS 180-4 SHA-256). -/
def Sha256.from_bytes (bytes : List Nat) : List Nat := sha256 bytes

/-- Verifier as constructed by upgrade_server_stream
(transport_server.rs 307-308): pinned to client_tls_cert_hash, the SHA-256
digest of the client certificate received during the handshake — not to the
certificate itself. -/
def upgrade_server_stream_verifier (client_tls_cert_hash : List Nat) : SingleCertVerifier :=
  SingleCertVerifier.new client_tls_cert_hash

/-- Verifier as constructed by upgrade_client_stream
(transport_client.rs 151-152): pinned to server_tls_cert_hash, the SHA-256
digest of the server certificate carried by HelloReply::Ok. -/
def upgrade_client_stream_verifier (server_tls_cert_hash : List Nat) : SingleCertVerifier :=
  SingleCertVerifier.new server_tls_cert_hash

/-- A small concrete DER-like certificate byte string. -/
def certA : List Nat := [0x30, 0x82, 0x01, 0x0a, 0x02, 0x01, 0x01]

/-- A second, distinct concrete certificate byte string. -/
def certB : List Nat := [0x30, 0x82, 0x01, 0x0a, 0x02, 0x01, 0x02]

/-- C1: pinned certificate verification.  The raw-byte part of the claim
holds: a verifier pinned to certificate A accepts exactly A and rejects the
distinct certificate B.  But the fingerprint part fails on the code: both
callers pin the SHA-256 digest of the peer certificate, and since the
verifier compares raw bytes, the genuine peer certificate — the one whose
digest equals the pinned fingerprint — is rejected, in both the client and
the server direction.  The conjuncts below evaluate the verifier exactly as
upgrade_client_stream and upgrade_server_stream construct it. -/
theorem C1_pinned_hash_verifier_rejects_genuine_peer :
    (SingleCertVerifier.new certA).verify_server_cert certA = true
  ∧ (SingleCertVerifier.new certA).verify_server_cert certB = false
  ∧ (SingleCertVerifier.new certA).verify_client_cert certB = false
  ∧ Sha256.from_bytes certA ≠ certA
  ∧ (upgrade_client_stream_verifier (Sha256.from_bytes certA)).verify_server_cert certA = false
  ∧ (upgrade_server_stream_verifier (Sha256.from_bytes certA)).verify_client_cert certA = false := by
  decide

/-! ## Framed transport codec (src/transport/mod.rs 31-125)

The read side is MessageReader over (src, buf): fill_buf awaits reads from
src until buf holds at least the requested number of bytes; recv_msg reads a
2-byte big-endian header with get_u16 (consuming it from buf), skips
zero-length poke frames, then fills and consumes the payload.

The byte source src is modelled as a list of chunks, each chunk the bytes
yielded by one read_buf call; an exhausted list or an empty chunk is a read
returning 0, which the code maps to an UnexpectedEof error.  The buffer is a
byte list; get_u16 and copy_to_bytes consume from its front. -/

/-- Errors of the transport layer. -/
inductive TransportErr
  | unexpectedEof
  | decodeFail
  | oversize
  | modeMismatch
  deriving DecidableEq, Repr

/-- HEADER_LEN: two bytes of u16 length header. -/
def HEADER_LEN : Nat := 2

/-- Buf::get_u16 value of two big-endian bytes. -/
def be16dec (a b : Nat) : Nat := 256 * a + b

/-- u16::to_be_bytes of a length value below 65536. -/
def be16enc (n : Nat) : List Nat := [n / 256, n % 256]

/-- MessageReader::fill_buf: read chunks from the source into the buffer
until it holds at least size bytes.  Returns the grown buffer and the
remaining chunks. -/
def fill_buf (size : Nat) (buf : List Nat) (chunks : List (List Nat)) :
    Except TransportErr (List Nat × List (List Nat)) :=
  if size ≤ buf.length then .ok (buf, chunks)
  else
    match chunks with
    | [] => .error .unexpectedEof
    | c :: rest =>
        if c.isEmpty then .error .unexpectedEof else fill_buf size (buf ++ c) rest

/-- Total number of bytes held in the buffer and still arriving in chunks. -/
def totalLen (buf : List Nat) (chunks : List (List Nat)) : Nat :=
  buf.length + (chunks.map List.length).sum

/-- A successful fill_buf reaches the requested size and neither loses nor
invents bytes. -/
theorem fill_buf_ok {size : Nat} {buf b : List Nat} {chunks c : List (List Nat)}
    (h : fill_buf size buf chunks = .ok (b, c)) :
    size ≤ b.length ∧ totalLen b c = totalLen buf chunks := by
  induction chunks generalizing buf with
  | nil =>
      rw [fill_buf] at h
      split at h
      · simp_all
      · simp at h
  | cons ch rest ih =>
      rw [fill_buf] at h
      split at h
      · obtain ⟨rfl, rfl⟩ : buf = b ∧ ch :: rest = c := by simpa using h
        simp_all
      · split at h
        · simp at h
        · have := ih h
          simp only [totalLen, List.length_append, List.map_cons, List.sum_cons] at *
          omega

/-- The loop body of MessageReader::recv_msg at the byte level: fill the
header, consume it with get_u16, skip the frame when the length is zero,
otherwise fill and consume the payload.  Returns the payload bytes of the
first real frame, with the remaining buffer and chunks. -/
def recv_frame (buf : List Nat) (chunks : List (List Nat)) :
    Except TransportErr (List Nat × List Nat × List (List Nat)) :=
  match h2 : fill_buf HEADER_LEN buf chunks with
  | .error e => .error e
  | .ok (b1, c1) =>
      -- get message length (get_u16 consumes the two header bytes)
      let length := be16dec (b1.getD 0 0) (b1.getD 1 0)
      -- ignore 0 bytes message
      if length = 0 then
        recv_frame (b1.drop 2) c1
      else
        match fill_buf length (b1.drop 2) c1 with
        | .error e => .error e
        | .ok (b3, c3) => .ok (b3.take length, b3.drop length, c3)
termination_by totalLen buf chunks
decreasing_by
  have hfb := fill_buf_ok h2
  simp only [totalLen, List.length_drop, HEADER_LEN] at *
  omega

/-- MessageReader::recv_msg: the first real frame payload, deserialized
with the given bincode decoder. -/
def recv_msg {M : Type} (dec : List Nat → Option (M × List Nat))
    (buf : List Nat) (chunks : List (List Nat)) :
    Except TransportErr (M × List Nat × List (List Nat)) :=
  match recv_frame buf chunks with
  | .error e => .error e
  | .ok (payload, b, c) =>
      match dec payload with
      | some (m, _) => .ok (m, b, c)
      | none => .error .decodeFail

/-- Function send_msg of transport/mod.rs, given the bincode serialization
of the message: the length is converted to u16 first (failing when the
message is longer than 65535 bytes, before anything touches the sink), then
header and payload are written in a single write_all.  The second component
is the byte string written to the sink. -/
def send_msg (encoded : List Nat) : Except TransportErr Unit × List Nat :=
  if encoded.length ≤ 65535 then (.ok (), be16enc encoded.length ++ encoded)
  else (.error .oversize, [])

/-- C2: cancel-safety of recv_msg fails on the code.  After the header of a
frame has been parsed, get_u16 has already consumed two bytes from the
persistent read buffer; the await inside the second fill_buf is a
cancellation point, and a future dropped there leaves the buffer equal to
List.drop 2 of its filled state.  With buffer [0, 3] (a header announcing a
3-byte payload) and the payload [7, 8, 9] still in flight, the cancelled
and re-invoked receive misparses the payload as a header and dies with
UnexpectedEof, while an uncancelled receive returns the message bytes
[7, 8, 9]: bytes are consumed from the logical stream before a full frame
has been parsed, so a re-invocation does not return the next message. -/
theorem C2_recv_msg_not_cancel_safe :
    recv_frame (List.drop 2 [0, 3]) [[7, 8, 9]] = .error .unexpectedEof
  ∧ recv_frame [0, 3] [[7, 8, 9]] = .ok ([7, 8, 9], [], []) := by
  constructor <;> simp [recv_frame.eq_def, fill_buf, be16dec, HEADER_LEN]

/-! ## Protocol data model

MouseButton, KeyCode and InputEvent are transcribed from
src/protocol/input_event.rs (variant order is the serde variant index used
by bincode).  The message enums around them (HelloMessage, HelloReply,
UpgradeTransportRequest, UpgradeTransportResponse, ClientMessage,
ServerMessage) live in a protocol module that is not among the given
sources; they are modelled from the spec (section 3) and from how the
client and server sources construct and match them. -/

/-- Mouse button (enum MouseButton of input_event.rs). -/
inductive MouseButton
  | Left | Right | Middle | Mouse4 | Mouse5
  deriving DecidableEq, Repr

/-- Keyboard key (enum KeyCode of input_event.rs, in declaration order). -/
inductive KeyCode
  | Escape
  | F1 | F2 | F3 | F4 | F5 | F6 | F7 | F8 | F9 | F10 | F11 | F12
  | PrintScreen | ScrollLock | PauseBreak
  | Grave
  | D1 | D2 | D3 | D4 | D5 | D6 | D7 | D8 | D9 | D0
  | Minus | Equal
  | A | B | C | D | E | F | G | H | I | J | K | L | M
  | N | O | P | Q | R | S | T | U | V | W | X | Y | Z
  | LeftBrace | RightBrace
  | SemiColon | Apostrophe
  | Comma | Dot | Slash
  | Backspace | BackSlash | Enter
  | Space
  | Tab | CapsLock
  | LeftShift | RightShift
  | LeftCtrl | RightCtrl
  | LeftAlt | RightAlt
  | LeftMeta | RightMeta
  | Insert | Delete
  | Home | End
  | PageUp | PageDown
  | Up | Left | Down | Right
  deriving DecidableEq, Repr

/-- Input event (enum InputEvent of input_event.rs); dx and dy are i32. -/
inductive InputEvent
  | MouseMove (dx dy : Int)
  | MouseButtonDown (button : MouseButton)
  | MouseButtonUp (button : MouseButton)
  | MouseScroll
  | KeyDown (key : KeyCode)
  | KeyRepeat (key : KeyCode)
  | KeyUp (key : KeyCode)
  deriving DecidableEq, Repr

/-- Modelled from the spec: HelloMessage of the missing protocol module,
with the client version String carried as its UTF-8 byte sequence. -/
structure HelloMessage where
  client_version : List Nat
  deriving DecidableEq, Repr

/-- Modelled from the spec: UpgradeTransportRequest carries the server
certificate fingerprint (32-byte SHA-256 digest). -/
structure UpgradeTransportRequest where
  server_tls_cert_hash : List Nat
  deriving DecidableEq, Repr

/-- Modelled from the spec: UpgradeTransportResponse carries the client
certificate fingerprint (32-byte SHA-256 digest). -/
structure UpgradeTransportResponse where
  client_tls_cert_hash : List Nat
  deriving DecidableEq, Repr

/-- Modelled from the spec: the version-mismatch error reply reason. -/
inductive HelloReplyError
  | VersionMismatch
  deriving DecidableEq, Repr

/-- Modelled from the spec: HelloReply is Ok carrying the upgrade request
with the server fingerprint, or Err carrying a reason (as matched by
run_client in transport_client.rs 67-76). -/
inductive HelloReply
  | Ok (req : UpgradeTransportRequest)
  | Err (err : HelloReplyError)
  deriving DecidableEq, Repr

/-- Modelled from the spec: messages from client to server, as constructed
and matched by the two sources (Hello, then UpgradeTransportReply). -/
inductive ClientMessage
  | Hello (msg : HelloMessage)
  | UpgradeTransportReply (msg : UpgradeTransportResponse)
  deriving DecidableEq, Repr

/-- Modelled from the spec: messages from server to client (HelloReply,
then Event carrying an InputEvent). -/
inductive ServerMessage
  | HelloReply (reply : HelloReply)
  | Event (event : InputEvent)
  deriving DecidableEq, Repr

/-! ## bincode byte format (external crate, modelled)

bincode::serialize with its legacy default configuration writes integers
little-endian and fixed-width, enum variants as a u32 variant index in
declaration order followed by the payload, String and Vec as a u64 element
count followed by the elements, and fixed-size arrays as their elements
with no count.  bincode::serialized_size is the length of that byte
string.  Deserialization of a String checks UTF-8 validity; the model
omits that check, which only widens the set of messages quantified over
(every byte string produced by serializing an actual String is valid). -/

/-- Little-endian 4-byte encoding of a u32 value. -/
def u32le (n : Nat) : List Nat :=
  [n % 256, n / 256 % 256, n / 65536 % 256, n / 16777216 % 256]

/-- Read a little-endian u32 from the front of a byte string. -/
def readU32 : List Nat → Option (Nat × List Nat)
  | a :: b :: c :: d :: rest =>
      some (a + 256 * b + 65536 * c + 16777216 * d, rest)
  | _ => none

/-- Little-endian 8-byte encoding of a u64 value. -/
def u64le (n : Nat) : List Nat :=
  [n % 256, n / 256 % 256, n / 65536 % 256, n / 16777216 % 256,
   n / 4294967296 % 256, n / 1099511627776 % 256, n / 281474976710656 % 256,
   n / 72057594037927936 % 256]

/-- Read a little-endian u64 from the front of a byte string. -/
def readU64 : List Nat → Option (Nat × List Nat)
  | a :: b :: c :: d :: e :: f :: g :: h :: rest =>
      some (a + 256 * b + 65536 * c + 16777216 * d + 4294967296 * e +
            1099511627776 * f + 281474976710656 * g + 72057594037927936 * h, rest)
  | _ => none

/-- Little-endian two-complement encoding of an i32 value. -/
def i32le (z : Int) : List Nat := u32le (z % 4294967296).toNat

/-- Interpret a u32 value as a two-complement i32. -/
def decodeI32 (n : Nat) : Int :=
  if n < 2147483648 then (n : Int) else (n : Int) - 4294967296

/-- Read a little-endian i32 from the front of a byte string. -/
def readI32 (bs : List Nat) : Option (Int × List Nat) :=
  (readU32 bs).map fun p => (decodeI32 p.1, p.2)

/-- Read exactly n raw bytes from the front of a byte string. -/
def readN (n : Nat) (bs : List Nat) : Option (List Nat × List Nat) :=
  if n ≤ bs.length then some (bs.take n, bs.drop n) else none

/-- The MouseButton variants in declaration order. -/
def mouseButtonList : List MouseButton := [.Left, .Right, .Middle, .Mouse4, .Mouse5]

/-- Variant index of a MouseButton. -/
def mbIdx (b : MouseButton) : Nat := mouseButtonList.indexOf b

/-- MouseButton of a variant index. -/
def mbOfIdx (n : Nat) : Option MouseButton := mouseButtonList[n]?

open KeyCode in
/-- The KeyCode variants in declaration order. -/
def keyCodeList : List KeyCode :=
  [Escape,
   F1, F2, F3, F4, F5, F6, F7, F8, F9, F10, F11, F12,
   PrintScreen, ScrollLock, PauseBreak,
   Grave,
   D1, D2, D3, D4, D5, D6, D7, D8, D9, D0,
   Minus, Equal,
   A, B, C, D, E, F, G, H, I, J, K, L, M,
   N, O, P, Q, R, S, T, U, V, W, X, Y, Z,
   LeftBrace, RightBrace,
   SemiColon, Apostrophe,
   Comma, Dot, Slash,
   Backspace, BackSlash, Enter,
   Space,
   Tab, CapsLock,
   LeftShift, RightShift,
   LeftCtrl, RightCtrl,
   LeftAlt, RightAlt,
   LeftMeta, RightMeta,
   Insert, Delete,
   Home, End,
   PageUp, PageDown,
   Up, Left, Down, Right]

/-- Variant index of a KeyCode. -/
def kIdx (k : KeyCode) : Nat := keyCodeList.indexOf k

/-- KeyCode of a variant index. -/
def kcOfIdx (n : Nat) : Option KeyCode := keyCodeList[n]?

/-- bincode encoding of a MouseButton (u32 variant tag, no payload). -/
def encMouseButton (b : MouseButton) : List Nat := u32le (mbIdx b)

/-- bincode decoding of a MouseButton. -/
def decMouseButton (bs : List Nat) : Option (MouseButton × List Nat) :=
  match readU32 bs with
  | some (n, r) => (mbOfIdx n).map fun b => (b, r)
  | none => none

/-- bincode encoding of a KeyCode (u32 variant tag, no payload). -/
def encKeyCode (k : KeyCode) : List Nat := u32le (kIdx k)

/-- bincode decoding of a KeyCode. -/
def decKeyCode (bs : List Nat) : Option (KeyCode × List Nat) :=
  match readU32 bs with
  | some (n, r) => (kcOfIdx n).map fun k => (k, r)
  | none => none

/-- bincode encoding of an InputEvent. -/
def encInputEvent : InputEvent → List Nat
  | .MouseMove dx dy => u32le 0 ++ i32le dx ++ i32le dy
  | .MouseButtonDown b => u32le 1 ++ encMouseButton b
  | .MouseButtonUp b => u32le 2 ++ encMouseButton b
  | .MouseScroll => u32le 3
  | .KeyDown k => u32le 4 ++ encKeyCode k
  | .KeyRepeat k => u32le 5 ++ encKeyCode k
  | .KeyUp k => u32le 6 ++ encKeyCode k

/-- bincode decoding of an InputEvent. -/
def decInputEvent (bs : List Nat) : Option (InputEvent × List Nat) :=
  match readU32 bs with
  | some (0, r) =>
      match readI32 r with
      | some (dx, r1) =>
          match readI32 r1 with
          | some (dy, r2) => some (.MouseMove dx dy, r2)
          | none => none
      | none => none
  | some (1, r) => (decMouseButton r).map fun p => (.MouseButtonDown p.1, p.2)
  | some (2, r) => (decMouseButton r).map fun p => (.MouseButtonUp p.1, p.2)
  | some (3, r) => some (.MouseScroll, r)
  | some (4, r) => (decKeyCode r).map fun p => (.KeyDown p.1, p.2)
  | some (5, r) => (decKeyCode r).map fun p => (.KeyRepeat p.1, p.2)
  | some (6, r) => (decKeyCode r).map fun p => (.KeyUp p.1, p.2)
  | _ => none

/-- bincode encoding of a HelloReply. -/
def encHelloReply : HelloReply → List Nat
  | .Ok req => u32le 0 ++ req.server_tls_cert_hash
  | .Err .VersionMismatch => u32le 1 ++ u32le 0

/-- bincode decoding of a HelloReply. -/
def decHelloReply (bs : List Nat) : Option (HelloReply × List Nat) :=
  match readU32 bs with
  | some (0, r) => (readN 32 r).map fun p => (.Ok ⟨p.1⟩, p.2)
  | some (1, r) =>
      match readU32 r with
      | some (0, r1) => some (.Err .VersionMismatch, r1)
      | _ => none
  | _ => none

/-- bincode encoding of a ServerMessage. -/
def encServerMessage : ServerMessage → List Nat
  | .HelloReply r => u32le 0 ++ encHelloReply r
  | .Event e => u32le 1 ++ encInputEvent e

/-- bincode decoding of a ServerMessage. -/
def decServerMessage (bs : List Nat) : Option (ServerMessage × List Nat) :=
  match readU32 bs with
  | some (0, r) => (decHelloReply r).map fun p => (.HelloReply p.1, p.2)
  | some (1, r) => (decInputEvent r).map fun p => (.Event p.1, p.2)
  | _ => none

/-- bincode encoding of a ClientMessage. -/
def encClientMessage : ClientMessage → List Nat
  | .Hello h => u32le 0 ++ u64le h.client_version.length ++ h.client_version
  | .UpgradeTransportReply r => u32le 1 ++ r.client_tls_cert_hash

/-- bincode decoding of a ClientMessage. -/
def decClientMessage (bs : List Nat) : Option (ClientMessage × List Nat) :=
  match readU32 bs with
  | some (0, r) =>
      match readU64 r with
      | some (n, r1) => (readN n r1).map fun p => (.Hello ⟨p.1⟩, p.2)
      | none => none
  | some (1, r) => (readN 32 r).map fun p => (.UpgradeTransportReply ⟨p.1⟩, p.2)
  | _ => none

/-- Well-formedness of an InputEvent value as a Rust value: mouse deltas
are i32. -/
def wfInputEvent : InputEvent → Prop
  | .MouseMove dx dy =>
      -2147483648 ≤ dx ∧ dx < 2147483648 ∧ -2147483648 ≤ dy ∧ dy < 2147483648
  | _ => True

/-- Well-formedness of a ServerMessage as a Rust value: fingerprints are 32
bytes, events carry i32 deltas. -/
def wfServerMessage : ServerMessage → Prop
  | .HelloReply (.Ok req) => req.server_tls_cert_hash.length = 32
  | .HelloReply (.Err _) => True
  | .Event e => wfInputEvent e

/-- Well-formedness of a ClientMessage as a Rust value: the version string
length fits usize, fingerprints are 32 bytes. -/
def wfClientMessage : ClientMessage → Prop
  | .Hello h => h.client_version.length < 18446744073709551616
  | .UpgradeTransportReply r => r.client_tls_cert_hash.length = 32

/-- bincode::serialized_size of an InputEvent. -/
def sizeInputEvent : InputEvent → Nat
  | .MouseMove _ _ => 12
  | .MouseButtonDown _ => 8
  | .MouseButtonUp _ => 8
  | .MouseScroll => 4
  | .KeyDown _ => 8
  | .KeyRepeat _ => 8
  | .KeyUp _ => 8

/-- bincode::serialized_size of a ServerMessage. -/
def serialized_size_server : ServerMessage → Nat
  | .HelloReply (.Ok _) => 40
  | .HelloReply (.Err _) => 12
  | .Event e => 4 + sizeInputEvent e

/-- bincode::serialized_size of a ClientMessage. -/
def serialized_size_client : ClientMessage → Nat
  | .Hello h => 12 + h.client_version.length
  | .UpgradeTransportReply _ => 36

/-! ## Codec round-trip lemmas -/

theorem readU32_u32le (n : Nat) (r : List Nat) (h : n < 4294967296) :
    readU32 (u32le n ++ r) = some (n, r) := by
  simp [u32le, readU32]
  omega

theorem readU64_u64le (n : Nat) (r : List Nat) (h : n < 18446744073709551616) :
    readU64 (u64le n ++ r) = some (n, r) := by
  simp [u64le, readU64]
  omega

theorem readI32_i32le (z : Int) (r : List Nat)
    (h1 : -2147483648 ≤ z) (h2 : z < 2147483648) :
    readI32 (i32le z ++ r) = some (z, r) := by
  have h3 : 0 ≤ z % 4294967296 := Int.emod_nonneg z (by norm_num)
  have h4 : z % 4294967296 < 4294967296 := Int.emod_lt_of_pos z (by norm_num)
  have h5 : (z % 4294967296).toNat < 4294967296 := by omega
  have h6 : ((z % 4294967296).toNat : Int) = z % 4294967296 := Int.toNat_of_nonneg h3
  rw [readI32, i32le, readU32_u32le _ _ h5]
  show some (decodeI32 (z % 4294967296).toNat, r) = some (z, r)
  rw [decodeI32]
  split <;> simp only [Option.some.injEq, Prod.mk.injEq] <;> exact ⟨by omega, trivial⟩

theorem readN_append (l r : List Nat) : readN l.length (l ++ r) = some (l, r) := by
  simp [readN, List.take_left, List.drop_left]

theorem kcOfIdx_kIdx (k : KeyCode) : kcOfIdx (kIdx k) = some k := by
  cases k <;> rfl

theorem mbOfIdx_mbIdx (b : MouseButton) : mbOfIdx (mbIdx b) = some b := by
  cases b <;> rfl

theorem decKeyCode_enc (k : KeyCode) (r : List Nat) :
    decKeyCode (encKeyCode k ++ r) = some (k, r) := by
  cases k <;> rfl

theorem decMouseButton_enc (b : MouseButton) (r : List Nat) :
    decMouseButton (encMouseButton b ++ r) = some (b, r) := by
  cases b <;> rfl

theorem decInputEvent_enc (e : InputEvent) (r : List Nat) (h : wfInputEvent e) :
    decInputEvent (encInputEvent e ++ r) = some (e, r) := by
  cases e with
  | MouseMove dx dy =>
      obtain ⟨h1, h2, h3, h4⟩ := h
      rw [show encInputEvent (.MouseMove dx dy) ++ r =
            u32le 0 ++ (i32le dx ++ (i32le dy ++ r)) by simp [encInputEvent]]
      simp [decInputEvent, readU32_u32le, readI32_i32le, *]
  | MouseButtonDown b =>
      rw [show encInputEvent (.MouseButtonDown b) ++ r =
            u32le 1 ++ (encMouseButton b ++ r) by simp [encInputEvent]]
      simp [decInputEvent, readU32_u32le, decMouseButton_enc]
  | MouseButtonUp b =>
      rw [show encInputEvent (.MouseButtonUp b) ++ r =
            u32le 2 ++ (encMouseButton b ++ r) by simp [encInputEvent]]
      simp [decInputEvent, readU32_u32le, decMouseButton_enc]
  | MouseScroll =>
      rw [show encInputEvent .MouseScroll ++ r = u32le 3 ++ r by simp [encInputEvent]]
      simp [decInputEvent, readU32_u32le]
  | KeyDown k =>
      rw [show encInputEvent (.KeyDown k) ++ r =
            u32le 4 ++ (encKeyCode k ++ r) by simp [encInputEvent]]
      simp [decInputEvent, readU32_u32le, decKeyCode_enc]
  | KeyRepeat k =>
      rw [show encInputEvent (.KeyRepeat k) ++ r =
            u32le 5 ++ (encKeyCode k ++ r) by simp [encInputEvent]]
      simp [decInputEvent, readU32_u32le, decKeyCode_enc]
  | KeyUp k =>
      rw [show encInputEvent (.KeyUp k) ++ r =
            u32le 6 ++ (encKeyCode k ++ r) by simp [encInputEvent]]
      simp [decInputEvent, readU32_u32le, decKeyCode_enc]

theorem decHelloReply_enc (hr : HelloReply) (r : List Nat)
    (h : wfServerMessage (.HelloReply hr)) :
    decHelloReply (encHelloReply hr ++ r) = some (hr, r) := by
  cases hr with
  | Ok req =>
      have hl : req.server_tls_cert_hash.length = 32 := h
      have h32 : readN 32 (req.server_tls_cert_hash ++ r) = some (req.server_tls_cert_hash, r) := by
        rw [← hl]; exact readN_append _ _
      rw [show encHelloReply (.Ok req) ++ r =
            u32le 0 ++ (req.server_tls_cert_hash ++ r) by simp [encHelloReply]]
      simp [decHelloReply, readU32_u32le, h32]
  | Err e =>
      cases e
      rw [show encHelloReply (.Err .VersionMismatch) ++ r =
            u32le 1 ++ (u32le 0 ++ r) by simp [encHelloReply]]
      simp [decHelloReply, readU32_u32le]

theorem decServerMessage_enc (m : ServerMessage) (r : List Nat) (h : wfServerMessage m) :
    decServerMessage (encServerMessage m ++ r) = some (m, r) := by
  cases m with
  | HelloReply hr =>
      rw [show encServerMessage (.HelloReply hr) ++ r =
            u32le 0 ++ (encHelloReply hr ++ r) by simp [encServerMessage]]
      simp [decServerMessage, readU32_u32le, decHelloReply_enc _ _ h]
  | Event e =>
      rw [show encServerMessage (.Event e) ++ r =
            u32le 1 ++ (encInputEvent e ++ r) by simp [encServerMessage]]
      simp [decServerMessage, readU32_u32le, decInputEvent_enc _ _ h]

theorem decClientMessage_enc (m : ClientMessage) (r : List Nat) (h : wfClientMessage m) :
    decClientMessage (encClientMessage m ++ r) = some (m, r) := by
  cases m with
  | Hello hm =>
      have hn : readU64 (u64le hm.client_version.length ++ (hm.client_version ++ r)) =
          some (hm.client_version.length, hm.client_version ++ r) := readU64_u64le _ _ h
      rw [show encClientMessage (.Hello hm) ++ r =
            u32le 0 ++ (u64le hm.client_version.length ++ (hm.client_version ++ r)) by
              simp [encClientMessage]]
      simp [decClientMessage, readU32_u32le, hn, readN_append]
  | UpgradeTransportReply resp =>
      have hl : resp.client_tls_cert_hash.length = 32 := h
      have h32 : readN 32 (resp.client_tls_cert_hash ++ r) = some (resp.client_tls_cert_hash, r) := by
        rw [← hl]; exact readN_append _ _
      rw [show encClientMessage (.UpgradeTransportReply resp) ++ r =
            u32le 1 ++ (resp.client_tls_cert_hash ++ r) by simp [encClientMessage]]
      simp [decClientMessage, readU32_u32le, h32]

theorem length_encInputEvent (e : InputEvent) : (encInputEvent e).length = sizeInputEvent e := by
  cases e <;> simp [encInputEvent, sizeInputEvent, u32le, i32le, encMouseButton, encKeyCode]

theorem length_encServerMessage (m : ServerMessage) (h : wfServerMessage m) :
    (encServerMessage m).length = serialized_size_server m := by
  cases m with
  | HelloReply hr =>
      cases hr with
      | Ok req =>
          have hl : req.server_tls_cert_hash.length = 32 := h
          simp [encServerMessage, encHelloReply, serialized_size_server, u32le, hl]
      | Err e => cases e; simp [encServerMessage, encHelloReply, serialized_size_server, u32le]
  | Event e =>
      simp [encServerMessage, serialized_size_server, u32le, length_encInputEvent]
      omega

theorem length_encClientMessage (m : ClientMessage) (h : wfClientMessage m) :
    (encClientMessage m).length = serialized_size_client m := by
  cases m with
  | Hello hm => simp [encClientMessage, serialized_size_client, u32le, u64le]; omega
  | UpgradeTransportReply resp =>
      have hl : resp.client_tls_cert_hash.length = 32 := h
      simp [encClientMessage, serialized_size_client, u32le, hl]

theorem serialized_size_client_pos (m : ClientMessage) : 0 < serialized_size_client m := by
  cases m <;> simp only [serialized_size_client] <;> omega

theorem serialized_size_server_pos (m : ServerMessage) : 0 < serialized_size_server m := by
  cases m with
  | HelloReply hr => cases hr <;> simp only [serialized_size_server] <;> omega
  | Event e => simp only [serialized_size_server]; omega

/-! ## Frame-level round trip -/

theorem fill_buf_of_le {size : Nat} {buf : List Nat} {chunks : List (List Nat)}
    (h : size ≤ buf.length) : fill_buf size buf chunks = .ok (buf, chunks) := by
  rw [fill_buf.eq_def]
  simp [h]

theorem be16dec_enc (n : Nat) : be16dec (n / 256) (n % 256) = n := by
  simp [be16dec]
  omega

theorem send_msg_ok (bs : List Nat) (h : bs.length ≤ 65535) :
    send_msg bs = (.ok (), be16enc bs.length ++ bs) := by
  rw [send_msg, if_pos h]

theorem recv_frame_frame (payload rest : List Nat) (chunks : List (List Nat))
    (hpos : 0 < payload.length) :
    recv_frame (be16enc payload.length ++ payload ++ rest) chunks = .ok (payload, rest, chunks) := by
  have hb : be16enc payload.length ++ payload ++ rest =
      (payload.length / 256) :: (payload.length % 256) :: (payload ++ rest) := by
    simp [be16enc]
  have h2 : fill_buf HEADER_LEN (be16enc payload.length ++ payload ++ rest) chunks =
      .ok (be16enc payload.length ++ payload ++ rest, chunks) :=
    fill_buf_of_le (by simp [be16enc, HEADER_LEN])
  have h3 : fill_buf payload.length (payload ++ rest) chunks = .ok (payload ++ rest, chunks) :=
    fill_buf_of_le (by simp)
  have hne : ¬(payload.length = 0) := by omega
  rw [recv_frame.eq_def, h2]
  simp only [hb, List.getD_cons_zero, List.getD_cons_succ, be16dec_enc, List.drop_succ_cons,
    List.drop_zero, hne, if_false, h3]
  simp [List.take_left, List.drop_left]

theorem recv_msg_frame {M : Type} (dec : List Nat → Option (M × List Nat))
    (payload rest : List Nat) (chunks : List (List Nat)) (m : M) (l : List Nat)
    (hpos : 0 < payload.length) (hdec : dec payload = some (m, l)) :
    recv_msg dec (be16enc payload.length ++ payload ++ rest) chunks = .ok (m, rest, chunks) := by
  rw [recv_msg, recv_frame_frame _ _ _ hpos]
  simp [hdec]

/-- C3: framing round-trip.  For every protocol message (either direction)
whose bincode size fits the 2-byte header, send_msg succeeds and produces
the frame of a 2-byte big-endian length followed by the bincode payload,
and recv_msg on those bytes (followed by anything else in the stream)
returns exactly the original message, leaving the rest of the stream
untouched.  The witness below instantiates this at the maximum
representable payload length 65535. -/
theorem C3_framing_round_trip :
    (∀ (m : ClientMessage) (rest : List Nat) (chunks : List (List Nat)),
       wfClientMessage m → serialized_size_client m ≤ 65535 →
       (send_msg (encClientMessage m)).1 = .ok () ∧
       recv_msg decClientMessage ((send_msg (encClientMessage m)).2 ++ rest) chunks =
         .ok (m, rest, chunks))
  ∧ (∀ (m : ServerMessage) (rest : List Nat) (chunks : List (List Nat)),
       wfServerMessage m → serialized_size_server m ≤ 65535 →
       (send_msg (encServerMessage m)).1 = .ok () ∧
       recv_msg decServerMessage ((send_msg (encServerMessage m)).2 ++ rest) chunks =
         .ok (m, rest, chunks)) := by
  constructor
  · intro m rest chunks hwf hsz
    have hl : (encClientMessage m).length = serialized_size_client m :=
      length_encClientMessage m hwf
    have hle : (encClientMessage m).length ≤ 65535 := by omega
    have hpos : 0 < (encClientMessage m).length := by
      have := serialized_size_client_pos m; omega
    have hdec : decClientMessage (encClientMessage m) = some (m, []) := by
      have := decClientMessage_enc m [] hwf
      rwa [List.append_nil] at this
    rw [send_msg_ok _ hle]
    exact ⟨rfl, by rw [List.append_assoc]; exact recv_msg_frame _ _ _ _ _ _ hpos hdec⟩
  · intro m rest chunks hwf hsz
    have hl : (encServerMessage m).length = serialized_size_server m :=
      length_encServerMessage m hwf
    have hle : (encServerMessage m).length ≤ 65535 := by omega
    have hpos : 0 < (encServerMessage m).length := by
      have := serialized_size_server_pos m; omega
    have hdec : decServerMessage (encServerMessage m) = some (m, []) := by
      have := decServerMessage_enc m [] hwf
      rwa [List.append_nil] at this
    rw [send_msg_ok _ hle]
    exact ⟨rfl, by rw [List.append_assoc]; exact recv_msg_frame _ _ _ _ _ _ hpos hdec⟩

/-- A Hello message whose frame payload is exactly 65535 bytes, the
maximum representable by the 2-byte length header. -/
def maxHello : ClientMessage := .Hello ⟨List.replicate 65523 97⟩

/-- Witness for C3 at the maximum payload length: the Hello message with a
65523-byte version string has bincode size exactly 65535 and round-trips
through send_msg and recv_msg. -/
theorem C3_framing_round_trip_witness :
    wfClientMessage maxHello
  ∧ serialized_size_client maxHello = 65535
  ∧ ((send_msg (encClientMessage maxHello)).1 = .ok () ∧
     recv_msg decClientMessage ((send_msg (encClientMessage maxHello)).2 ++ []) [] =
       .ok (maxHello, [], [])) :=
  ⟨by have h1 : ∀ (l : List Nat), wfClientMessage (.Hello ⟨l⟩) =
          (l.length < 18446744073709551616) := fun l => rfl
      rw [maxHello, h1, List.length_replicate]
      decide,
   by have h2 : ∀ (l : List Nat), serialized_size_client (.Hello ⟨l⟩) = 12 + l.length :=
        fun l => rfl
      rw [maxHello, h2, List.length_replicate],
   C3_framing_round_trip.1 maxHello [] []
     (by have h1 : ∀ (l : List Nat), wfClientMessage (.Hello ⟨l⟩) =
             (l.length < 18446744073709551616) := fun l => rfl
         rw [maxHello, h1, List.length_replicate]
         decide)
     (by have h2 : ∀ (l : List Nat), serialized_size_client (.Hello ⟨l⟩) = 12 + l.length :=
           fun l => rfl
         rw [maxHello, h2, List.length_replicate])⟩

/-! ## Poke transparency -/

theorem recv_frame_poke (buf : List Nat) (chunks : List (List Nat)) :
    recv_frame (0 :: 0 :: buf) chunks = recv_frame buf chunks := by
  have h2 : fill_buf HEADER_LEN (0 :: 0 :: buf) chunks = .ok (0 :: 0 :: buf, chunks) :=
    fill_buf_of_le (by simp [HEADER_LEN])
  rw [recv_frame.eq_def, h2]
  simp [be16dec]

theorem recv_frame_pokes (k : Nat) (buf : List Nat) (chunks : List (List Nat)) :
    recv_frame (List.replicate (2 * k) 0 ++ buf) chunks = recv_frame buf chunks := by
  induction k with
  | zero => simp
  | succ n ih =>
      have h : 2 * (n + 1) = 2 * n + 1 + 1 := by ring
      rw [h, List.replicate_succ, List.replicate_succ, List.cons_append, List.cons_append,
        recv_frame_poke, ih]

theorem recv_msg_pokes {M : Type} (dec : List Nat → Option (M × List Nat)) (k : Nat)
    (buf : List Nat) (chunks : List (List Nat)) :
    recv_msg dec (List.replicate (2 * k) 0 ++ buf) chunks = recv_msg dec buf chunks := by
  rw [recv_msg, recv_msg, recv_frame_pokes]

/-- C7: poke transparency.  Any number k of zero-length frames in front of
a real frame is skipped silently: recv_msg returns the same message as if
the pokes were absent, and that message is the one carried by the real
frame. -/
theorem C7_poke_transparency (k : Nat) (m : ServerMessage) (rest : List Nat)
    (chunks : List (List Nat)) (hwf : wfServerMessage m)
    (hsz : serialized_size_server m ≤ 65535) :
    recv_msg decServerMessage
        (List.replicate (2 * k) 0 ++
          (be16enc (encServerMessage m).length ++ encServerMessage m ++ rest)) chunks =
      recv_msg decServerMessage
        (be16enc (encServerMessage m).length ++ encServerMessage m ++ rest) chunks
  ∧ recv_msg decServerMessage
        (List.replicate (2 * k) 0 ++
          (be16enc (encServerMessage m).length ++ encServerMessage m ++ rest)) chunks =
      .ok (m, rest, chunks) := by
  have hpos : 0 < (encServerMessage m).length := by
    have h1 := length_encServerMessage m hwf
    have h2 := serialized_size_server_pos m
    omega
  have hdec : decServerMessage (encServerMessage m) = some (m, []) := by
    have := decServerMessage_enc m [] hwf
    rwa [List.append_nil] at this
  refine ⟨recv_msg_pokes _ _ _ _, ?_⟩
  rw [recv_msg_pokes]
  exact recv_msg_frame _ _ _ _ _ _ hpos hdec

/-- Witness for C7: two pokes in front of a frame carrying the MouseScroll
event are skipped and the event is returned. -/
theorem C7_poke_transparency_witness :
    recv_msg decServerMessage
        (List.replicate (2 * 2) 0 ++
          (be16enc (encServerMessage (.Event .MouseScroll)).length ++
            encServerMessage (.Event .MouseScroll) ++ [5])) [[6]] =
      .ok (.Event .MouseScroll, [5], [[6]]) :=
  (C7_poke_transparency 2 (.Event .MouseScroll) [5] [[6]]
    (by simp [wfServerMessage, wfInputEvent])
    (by simp [serialized_size_server, sizeInputEvent])).2

/-- C10: oversized-message send atomicity.  When the bincode size of a
message exceeds 65535, the u16 length conversion in send_msg fails before
the first write: send_msg returns an error and writes nothing to the
stream. -/
theorem C10_send_msg_oversize_atomic (m : ClientMessage)
    (hwf : wfClientMessage m) (hsz : 65535 < serialized_size_client m) :
    (send_msg (encClientMessage m)).1 = .error .oversize ∧
    (send_msg (encClientMessage m)).2 = [] := by
  have hl : (encClientMessage m).length = serialized_size_client m :=
    length_encClientMessage m hwf
  rw [send_msg, if_neg (by omega)]
  exact ⟨rfl, rfl⟩

/-- A Hello message one byte over the sendable limit (bincode size 65536). -/
def bigHello : ClientMessage := .Hello ⟨List.replicate 65524 97⟩

/-- Witness for C10: the 65536-byte Hello message fails to send and leaves
the stream untouched. -/
theorem C10_send_msg_oversize_atomic_witness :
    (send_msg (encClientMessage bigHello)).1 = .error .oversize ∧
    (send_msg (encClientMessage bigHello)).2 = [] :=
  C10_send_msg_oversize_atomic bigHello
    (by have h1 : ∀ (l : List Nat), wfClientMessage (.Hello ⟨l⟩) =
            (l.length < 18446744073709551616) := fun l => rfl
        rw [bigHello, h1, List.length_replicate]
        decide)
    (by have h2 : ∀ (l : List Nat), serialized_size_client (.Hello ⟨l⟩) = 12 + l.length :=
          fun l => rfl
        rw [bigHello, h2, List.length_replicate]
        decide)

/-! ## Transporter (src/transport/mod.rs 128-255)

The async upgrader is modelled as an Except-valued function on the owned
stream value. -/

/-- Transport struct: the IO stream plus the persistent read buffer (the
two PhantomData fields carry no data and are omitted). -/
structure Transport (S : Type) where
  stream : S
  read_buf : List Nat
  deriving DecidableEq, Repr

/-- Transport::new: fresh transport with an empty (Default) read buffer. -/
def Transport.new {S : Type} (stream : S) : Transport S := ⟨stream, []⟩

/-- Transport::try_map_stream: maps the stream while keeping the other
internal data intact. -/
def Transport.try_map_stream {S T : Type} (t : Transport S)
    (map : S → Except TransportErr T) : Except TransportErr (Transport T) :=
  match map t.stream with
  | .error e => .error e
  | .ok s => .ok ⟨s, t.read_buf⟩

/-- Transporter enum over a plain stream type and a secure stream type. -/
inductive Transporter (PS SS : Type)
  | Plain (t : Transport PS)
  | Secure (t : Transport SS)
  deriving DecidableEq, Repr

/-- Transporter::plain: borrow the plain transport, or a mode-mismatch
error (bail) when the transporter is secure. -/
def Transporter.plain {PS SS : Type} :
    Transporter PS SS → Except TransportErr (Transport PS)
  | .Plain t => .ok t
  | _ => .error .modeMismatch

/-- Transporter::secure: borrow the secure transport, or a mode-mismatch
error when the transporter is plain. -/
def Transporter.secure {PS SS : Type} :
    Transporter PS SS → Except TransportErr (Transport SS)
  | .Secure t => .ok t
  | _ => .error .modeMismatch

/-- Transporter::upgrade: from Plain, map the owned stream through the
upgrader and rebuild a Secure transporter via try_map_stream; from Secure,
a runtime error. -/
def Transporter.upgrade {PS SS : Type} (tr : Transporter PS SS)
    (upgrader : PS → Except TransportErr SS) : Except TransportErr (Transporter PS SS) :=
  match tr with
  | .Plain t =>
      match t.try_map_stream upgrader with
      | .error e => .error e
      | .ok t2 => .ok (.Secure t2)
  | _ => .error .modeMismatch

/-- C8: upgrade preserves the read buffer.  For every Plain transporter
and every upgrader that succeeds on its stream, upgrade returns a Secure
transporter whose read buffer is exactly the old one — buffered but
unconsumed plaintext bytes are carried over — and whose stream is the
upgrader result; nothing else changes. -/
theorem C8_upgrade_preserves_read_buf {PS SS : Type}
    (t : Transport PS) (upgrader : PS → Except TransportErr SS) (s2 : SS)
    (h : upgrader t.stream = .ok s2) :
    (Transporter.Plain t : Transporter PS SS).upgrade upgrader =
      .ok (.Secure ⟨s2, t.read_buf⟩) := by
  simp [Transporter.upgrade, Transport.try_map_stream, h]

/-- Witness for C8: a plain transporter over stream 7 with buffered bytes
[1, 2, 3], upgraded by a function returning stream 8, yields the secure
transporter over stream 8 with the same buffered bytes. -/
theorem C8_upgrade_preserves_read_buf_witness :
    (Transporter.Plain ⟨7, [1, 2, 3]⟩ : Transporter Nat Nat).upgrade
        (fun s => .ok (s + 1)) =
      .ok (.Secure ⟨8, [1, 2, 3]⟩) :=
  C8_upgrade_preserves_read_buf ⟨7, [1, 2, 3]⟩ (fun s => .ok (s + 1)) 8 rfl

/-! ## Server session manager and session state machine
(src/server/transport_server.rs)

The select arms of run (lines 41-80) are modelled as a step function over
the manager state; `biased;` makes the poll order textual, which selectArm
captures.  The shared session state written back by run_session under the
mutex is carried inside the session slot; the session task mutating it
between manager steps is an environment input (sessTransition). -/

/-- Session state enum of transport_server.rs (State, Default is
Handshaking). -/
inductive SessState
  | Handshaking
  | Idle
  | ReceivedEvent (event : InputEvent)
  deriving DecidableEq, Repr

/-- SessionHandler::is_connected: the state read under the mutex is Idle
or ReceivedEvent (everything else, i.e. Handshaking, is false). -/
def is_connected : SessState → Bool
  | .Idle => true
  | .ReceivedEvent _ => true
  | _ => false

/-- Manager state: the optional session handler slot (holding the shared
session state, initialized to Handshaking by spawn_session) and whether
the loop is still running (it breaks when the intake channel closes). -/
structure MgrState where
  session : Option SessState
  running : Bool
  deriving DecidableEq, Repr

/-- Manager state before the loop: no session handler. -/
def MgrState.init : MgrState := ⟨none, true⟩

/-- One serviced readiness event of the manager loop: the session task
finished, the intake channel yielded (some event, or none when closed),
the listener accepted a connection, or — as an environment step — the
session task committed a new shared state. -/
inductive MgrInput
  | finishedReady
  | intake (e : Option InputEvent)
  | conn
  | sessTransition (s : SessState)
  deriving DecidableEq, Repr

/-- Observable effect of one serviced manager arm. -/
inductive MgrOutput
  | clearedSlot
  | forwarded (e : InputEvent)
  | dropped (e : InputEvent)
  | stopped
  | spawned
  | acceptedThenDropped
  | noOutput
  deriving DecidableEq, Repr

/-- One iteration of the manager loop body (run, lines 47-79), given the
serviced arm: finished clears the slot; an event is forwarded only to an
existing connected session and dropped otherwise; a closed channel stops
the loop; a connection spawns a session only into an empty slot and is
otherwise dropped on the spot (the accepted stream goes out of scope; no
task is spawned for it and nothing is ever written to it). -/
def mgrStep (s : MgrState) (i : MgrInput) : MgrState × MgrOutput :=
  match i with
  | .finishedReady =>
      match s.session with
      | some _ => ({ s with session := none }, .clearedSlot)
      | none => (s, .noOutput)
  | .intake e =>
      match e, s.session with
      | some ev, some st =>
          if is_connected st then (s, .forwarded ev) else (s, .dropped ev)
      | some ev, none => (s, .dropped ev)
      | none, _ => ({ s with running := false }, .stopped)
  | .conn =>
      match s.session with
      | none => ({ s with session := some .Handshaking }, .spawned)
      | some _ => (s, .acceptedThenDropped)
  | .sessTransition st =>
      match s.session with
      | some _ => ({ s with session := some st }, .noOutput)
      | none => (s, .noOutput)

/-- The three select arms of the manager loop, in textual order. -/
inductive MgrArm
  | finished
  | intake
  | conn
  deriving DecidableEq, Repr

/-- The biased select of run: with `biased;`, tokio polls the arms in
textual order — session completion, then intake recv, then listener
accept — and services the first ready one.  The finished future is
future::pending unless a session handler exists, so that arm is ready only
when hasSession holds. -/
def selectArm (hasSession finishedReady intakeReady connReady : Bool) : Option MgrArm :=
  if hasSession && finishedReady then some .finished
  else if intakeReady then some .intake
  else if connReady then some .conn
  else none

/-- Fold of the manager loop over a list of serviced inputs (the loop body
runs only while the loop has not broken). -/
def runMgr (s : MgrState) (inputs : List MgrInput) : MgrState :=
  inputs.foldl (fun st i => if st.running then (mgrStep st i).1 else st) s

/-- Number of sessions held by the manager. -/
def sessionCount (s : MgrState) : Nat := if s.session.isSome then 1 else 0

/-- C4: single active session.  Along every trace of the manager loop the
slot holds at most one session, and a connection arriving while a session
handler exists is accepted (it reached the loop only after
listener.accept returned) and then dropped: the manager state is
unchanged, no session task is spawned, and — since only session tasks
ever write to a connection — no handshake bytes are exchanged on it. -/
theorem C4_single_active_session :
    (∀ (inputs : List MgrInput), sessionCount (runMgr MgrState.init inputs) ≤ 1)
  ∧ (∀ (s : MgrState) (st : SessState), s.session = some st →
       mgrStep s .conn = (s, .acceptedThenDropped)) := by
  constructor
  · intro inputs
    unfold sessionCount
    split <;> omega
  · intro s st h
    simp [mgrStep, h]

/-- Witness for C4: a trace with two competing connections keeps a single
session, and a connection against an occupied slot is dropped without a
spawn. -/
theorem C4_single_active_session_witness :
    sessionCount (runMgr MgrState.init [.conn, .conn, .intake (some .MouseScroll)]) ≤ 1
  ∧ mgrStep ⟨some SessState.Idle, true⟩ .conn =
      (⟨some SessState.Idle, true⟩, .acceptedThenDropped) :=
  ⟨C4_single_active_session.1 _, C4_single_active_session.2 _ SessState.Idle rfl⟩

/-- C6: drop-when-disconnected.  An arriving event is forwarded to the
session exactly when a session handler exists and its shared state passes
is_connected (Idle or ReceivedEvent); otherwise the manager drops it,
leaving its own state untouched — nothing is buffered, and since a
forwarded output only ever arises from the intake step of that very
event, a dropped event can never be delivered later. -/
theorem C6_drop_when_disconnected :
    (∀ (s : MgrState) (e : InputEvent),
       (mgrStep s (.intake (some e))).2 = .forwarded e ↔
         ∃ st, s.session = some st ∧ is_connected st = true)
  ∧ (∀ (s : MgrState) (e : InputEvent),
       (mgrStep s (.intake (some e))).2 ≠ .forwarded e →
         mgrStep s (.intake (some e)) = (s, .dropped e))
  ∧ (∀ (s : MgrState) (i : MgrInput) (e : InputEvent),
       (mgrStep s i).2 = .forwarded e → i = .intake (some e)) := by
  refine ⟨fun s e => ?_, fun s e => ?_, fun s i e => ?_⟩
  · constructor
    · intro h
      match hs : s.session with
      | none => simp [mgrStep, hs] at h
      | some st =>
          refine ⟨st, rfl, ?_⟩
          by_contra hc
          simp [mgrStep, hs, hc] at h
    · rintro ⟨st, hs, hc⟩
      simp [mgrStep, hs, hc]
  · intro h
    match hs : s.session with
    | none => simp [mgrStep, hs]
    | some st =>
        rcases hcon : is_connected st with _ | _
        · simp [mgrStep, hs, hcon]
        · exact absurd (by simp [mgrStep, hs, hcon]) h
  · intro h
    match i with
    | .finishedReady =>
        match hs : s.session with
        | none => simp [mgrStep, hs] at h
        | some _ => simp [mgrStep, hs] at h
    | .intake (some ev) =>
        match hs : s.session with
        | none => simp [mgrStep, hs] at h
        | some st =>
            rcases hcon : is_connected st with _ | _
            · simp [mgrStep, hs, hcon] at h
            · simp [mgrStep, hs, hcon] at h
              simp [h]
    | .intake none => simp [mgrStep] at h
    | .conn =>
        match hs : s.session with
        | none => simp [mgrStep, hs] at h
        | some _ => simp [mgrStep, hs] at h
    | .sessTransition st =>
        match hs : s.session with
        | none => simp [mgrStep, hs] at h
        | some _ => simp [mgrStep, hs] at h

/-- Witness for C6: an event arriving while the lone session is still
Handshaking is dropped with the manager state unchanged. -/
theorem C6_drop_when_disconnected_witness :
    mgrStep ⟨some SessState.Handshaking, true⟩ (.intake (some .MouseScroll)) =
      (⟨some SessState.Handshaking, true⟩, .dropped .MouseScroll) :=
  C6_drop_when_disconnected.2.1 ⟨some SessState.Handshaking, true⟩ .MouseScroll (by decide)

/-- C9: manager dispatch priority.  The biased select services the first
ready arm in the fixed order finished, intake, conn; consequently, when a
session just finished while a new connection is also ready, the finished
arm runs first and clears the slot, and the still-pending connection is
then evaluated against the freed slot and spawns a session instead of
being dropped. -/
theorem C9_dispatch_priority :
    (∀ (hs f i c : Bool),
       (hs = true → f = true → selectArm hs f i c = some .finished)
     ∧ ((hs && f) = false → i = true → selectArm hs f i c = some .intake)
     ∧ ((hs && f) = false → i = false → c = true → selectArm hs f i c = some .conn))
  ∧ (∀ (st : SessState) (r : Bool),
       selectArm true true true true = some .finished
     ∧ (mgrStep ⟨some st, r⟩ .finishedReady).1.session = none
     ∧ mgrStep (mgrStep ⟨some st, r⟩ .finishedReady).1 .conn =
         (⟨some .Handshaking, r⟩, .spawned)) := by
  constructor
  · decide
  · intro st r
    refine ⟨rfl, ?_, ?_⟩ <;> simp [mgrStep]

/-- Witness for C9: with a finished Idle session and a pending connection
both ready, the finished arm is selected, the slot is cleared, and the
connection then spawns a fresh Handshaking session. -/
theorem C9_dispatch_priority_witness :
    (selectArm true true false true = some .finished ∧
     selectArm false false false true = some .conn)
  ∧ (selectArm true true true true = some .finished
     ∧ (mgrStep ⟨some SessState.Idle, true⟩ .finishedReady).1.session = none
     ∧ mgrStep (mgrStep ⟨some SessState.Idle, true⟩ .finishedReady).1 .conn =
         (⟨some .Handshaking, true⟩, .spawned)) :=
  ⟨⟨(C9_dispatch_priority.1 true true false true).1 rfl rfl,
    (C9_dispatch_priority.1 false false false true).2.2 rfl rfl rfl⟩,
   C9_dispatch_priority.2 SessState.Idle true⟩

/-! ## Handshake version check (run_session and run_client) -/

/-- Outcome of the server Handshaking state on its first received message
(run_session, transport_server.rs 176-266): a non-Hello message is a
protocol violation (bail); a Hello with a version different from the
server version makes the session send HelloReply::Err(VersionMismatch)
and break out of the loop — before generate_tls_key_pair and before any
upgrade; a matching version sends HelloReply::Ok carrying the fingerprint
of the freshly generated server certificate and proceeds toward the
upgrade. -/
inductive ServerHelloOutcome
  | protocolViolation
  | versionMismatch (sent : List ServerMessage)
  | proceed (sent : List ServerMessage)
  deriving DecidableEq, Repr

/-- The version-check part of run_session. -/
def server_handshake_hello (server_version server_tls_cert : List Nat)
    (msg : ClientMessage) : ServerHelloOutcome :=
  match msg with
  | .Hello h =>
      if h.client_version = server_version then
        .proceed [.HelloReply (.Ok ⟨Sha256.from_bytes server_tls_cert⟩)]
      else
        .versionMismatch [.HelloReply (.Err .VersionMismatch)]
  | _ => .protocolViolation

/-- Outcome of the client Handshaking state on the received HelloReply
(run_client, transport_client.rs 64-76): an Err reply aborts the client
(bail) before any certificate generation or upgrade; an Ok reply yields
the server fingerprint and the handshake proceeds to the upgrade; any
other message is a protocol violation. -/
inductive ClientHelloOutcome
  | aborted
  | proceed (server_tls_cert_hash : List Nat)
  | protocolViolation
  deriving DecidableEq, Repr

/-- The HelloReply handling of run_client. -/
def client_handle_hello_reply (msg : ServerMessage) : ClientHelloOutcome :=
  match msg with
  | .HelloReply (.Ok req) => .proceed req.server_tls_cert_hash
  | .HelloReply (.Err _) => .aborted
  | .Event _ => .protocolViolation

/-- C5: version mismatch.  For any differing client and server versions,
the server answers Hello with exactly one HelloReply::Err(VersionMismatch)
and terminates the session (the versionMismatch outcome breaks the loop
before key generation and upgrade); the client, on any Err reply, aborts
before its own upgrade call.  Neither outcome is the proceed constructor,
the only path on which a TLS upgrade is attempted. -/
theorem C5_version_mismatch (vc vs cert : List Nat) (h : vc ≠ vs) :
    server_handshake_hello vs cert (.Hello ⟨vc⟩) =
      .versionMismatch [.HelloReply (.Err .VersionMismatch)]
  ∧ ∀ (e : HelloReplyError),
      client_handle_hello_reply (.HelloReply (.Err e)) = .aborted := by
  refine ⟨?_, fun e => rfl⟩
  simp [server_handshake_hello, h]

/-- Witness for C5 at the spec versions: client 9.9.9 (UTF-8 bytes)
against server 1.0.0. -/
theorem C5_version_mismatch_witness :
    server_handshake_hello [49, 46, 48, 46, 48] [1, 2, 3]
        (.Hello ⟨[57, 46, 57, 46, 57]⟩) =
      .versionMismatch [.HelloReply (.Err .VersionMismatch)]
  ∧ ∀ (e : HelloReplyError),
      client_handle_hello_reply (.HelloReply (.Err e)) = .aborted :=
  C5_version_mismatch [57, 46, 57, 46, 57] [49, 46, 48, 46, 48] [1, 2, 3] (by decide)

end Duangler
